import Mathlib

/-!
Verification of `generic_tray.py` (generic-tray-creator): a parametric
OpenSCAD tray generator.  The script builds a CSG expression for a tray
with a grid of cavities (`createTray`, `createSubtractSlot`) and computes
each cavity's liquid volume analytically (`computeSlotVolume`).

The embedding below mirrors the Python source.  Python floats are
modelled by real numbers.  The CSG expressions produced by the `solid`
DSL are modelled by the explicit tree type `SolidExpr`.  The script
reads the module-level global `depth` (set from the CLI in `__main__`)
inside `createSubtractSlot` (line 82/87/93) and `createTray` (line 195);
that global is passed here as an explicit first parameter `gdepth`/`gd`,
distinct from the functions' own `binDepth`/`dep` parameters, exactly as
in the source.
-/

open Real

/-- CSG expression tree produced by the `solid` library calls used in the
script: `cube`, `sphere`, `translate`, `scale`, `union()(...)` (n-ary),
`intersection()(a, b)` and `difference()(a, b)`. -/
inductive SolidExpr : Type where
  | cube : ℝ → ℝ → ℝ → SolidExpr
  | sphere : ℝ → SolidExpr
  | translate : ℝ → ℝ → ℝ → SolidExpr → SolidExpr
  | scale : ℝ → ℝ → ℝ → SolidExpr → SolidExpr
  | union : List SolidExpr → SolidExpr
  | intersection : SolidExpr → SolidExpr → SolidExpr
  | difference : SolidExpr → SolidExpr → SolidExpr

/-- The triple `[totalWidth, totalHeight, shape]` returned by `createTray`
(line 198). -/
structure TrayResult : Type where
  totalWidth : ℝ
  totalHeight : ℝ
  solid : SolidExpr

/-- `createSubtractSlot` (lines 72-123).  `gdepth` is the module-level
global `depth` read by the body; `binDepth` is the (unused) parameter of
the same name. -/
noncomputable def createSubtractSlot (gdepth offsetX offsetY sizeX sizeY binDepth
    roundDepth trayFloor : ℝ) : SolidExpr :=
  -- If round-depth is zero, it's just a square plug (line 79)
  if roundDepth ≤ 0 then
    SolidExpr.translate offsetX offsetY trayFloor
      (SolidExpr.cube sizeX sizeY (gdepth * 1.1))
  else
    -- Prism sitting with corner at origin (line 87)
    let fullPrism := SolidExpr.cube sizeX sizeX (gdepth * 1.1)
    -- Prism translated in the z-dir by the roundDepth (line 91)
    let partPrism := SolidExpr.translate 0 0 roundDepth
      (SolidExpr.cube sizeX sizeX (gdepth * 1.1))
    -- Sphere scaled in z and placed at the bottom of partPrism (lines 98-107)
    let sphereRad := Real.sqrt 2 * sizeX / 2
    let sphereScaleZ := roundDepth / sphereRad
    let theSphere := SolidExpr.translate (sizeX / 2) (sizeX / 2) roundDepth
      (SolidExpr.scale 1 1 sphereScaleZ (SolidExpr.sphere sphereRad))
    SolidExpr.translate offsetX offsetY trayFloor
      (SolidExpr.scale 1 (sizeY / sizeX) 1
        (SolidExpr.intersection fullPrism
          (SolidExpr.union [partPrism, theSphere])))

/-- `sphereRad` (line 149). -/
noncomputable def sphereRad (xsz : ℝ) : ℝ := Real.sqrt 2 * xsz / 2

/-- `sphereScaleY` (line 150). -/
noncomputable def sphereScaleY (xsz ysz : ℝ) : ℝ := ysz / xsz

/-- `sphereScaleZ` (line 151). -/
noncomputable def sphereScaleZ (xsz rdepth : ℝ) : ℝ := rdepth / sphereRad xsz

/-- Spherical-cap base radius `a` (line 153). -/
noncomputable def capA (xsz : ℝ) : ℝ := xsz / 2

/-- Spherical-cap height `h` (line 154). -/
noncomputable def capH (xsz : ℝ) : ℝ := sphereRad xsz - capA xsz

/-- `oneCapFullVol` (line 155). -/
noncomputable def oneCapFullVol (xsz : ℝ) : ℝ :=
  Real.pi * capH xsz * (3 * capA xsz * capA xsz + capH xsz * capH xsz) / 6

/-- `fullSphereVol` (line 157). -/
noncomputable def fullSphereVol (xsz : ℝ) : ℝ :=
  4 * Real.pi * sphereRad xsz ^ 3 / 3

/-- The rounded-region volume term of `computeSlotVolume`:
`(fullSphereVol - 4*oneCapFullVol)/2` rescaled by the y- and z-scales
(lines 159-161). -/
noncomputable def roundVol_mm3 (xsz ysz rdepth : ℝ) : ℝ :=
  (fullSphereVol xsz - 4 * oneCapFullVol xsz) / 2
    * sphereScaleY xsz ysz * sphereScaleZ xsz rdepth

/-- `computeSlotVolume` (lines 126-171), returning `[totalVol_mL,
totalVol_cups]`. -/
noncomputable def computeSlotVolume (xsz ysz depth rdepth : ℝ) : ℝ × ℝ :=
  let prismTop_mm3 := (depth - rdepth) * xsz * ysz
  let totalVol_mm3 := prismTop_mm3 + roundVol_mm3 xsz ysz rdepth
  let totalVol_cm3 := totalVol_mm3 / 10 ^ 3
  (totalVol_cm3, totalVol_mm3 / 236588)

/-- The inner `for xsz in xlist` loop of `createTray` (lines 182-184):
appends one subtract-slot per column at the running `xOff`, advancing
`xOff += wall + xsz`; returns the slots of the row and the final `xOff`. -/
noncomputable def traySlotsRow (gd wall dep rdep floor ysz yOff : ℝ) :
    ℝ → List ℝ → List SolidExpr × ℝ
  | xOff, [] => ([], xOff)
  | xOff, xsz :: rest =>
    let r := traySlotsRow gd wall dep rdep floor ysz yOff (xOff + (wall + xsz)) rest
    (createSubtractSlot gd xOff yOff xsz ysz dep rdep floor :: r.1, r.2)

/-- The outer `for ysz in ylist` loop of `createTray` (lines 180-185):
each row restarts `xOff = wall`, then advances `yOff += wall + ysz`.
Returns the accumulated slot list and the final `(xOff, yOff)` pair. -/
noncomputable def trayLoop (gd wall dep rdep floor : ℝ) (xlist : List ℝ) :
    ℝ → ℝ → List ℝ → List SolidExpr × ℝ × ℝ
  | xOff, yOff, [] => ([], xOff, yOff)
  | _, yOff, ysz :: rest =>
    let row := traySlotsRow gd wall dep rdep floor ysz yOff wall xlist
    let r := trayLoop gd wall dep rdep floor xlist row.2 (yOff + (wall + ysz)) rest
    (row.1 ++ r.1, r.2)

/-- `createTray` (lines 173-206).  `gd` is the module-level global
`depth` used for the base prism height (line 195); `xScale`, `yScale`,
`zScale` are the calibration globals (line 61/66). -/
noncomputable def createTray (gd xScale yScale zScale : ℝ)
    (xlist ylist : List ℝ) (dep rdep wall floor : ℝ) : TrayResult :=
  let L := trayLoop gd wall dep rdep floor xlist wall wall ylist
  let totalWidth := L.2.1
  let totalHeight := L.2.2
  let allStuffToSubtract := SolidExpr.union L.1
  let trayBasePrism := SolidExpr.cube totalWidth totalHeight (floor + gd)
  ⟨totalWidth, totalHeight,
    SolidExpr.scale xScale yScale zScale
      (SolidExpr.difference trayBasePrism allStuffToSubtract)⟩

/-- The interactive round-depth policy of `__main__` (lines 247-254): when
`rdepth > depth - 5` the operator is asked to shorten; answering yes clamps
`rdepth` to `max (depth - 5) 0`, answering no aborts (`none`); otherwise
`rdepth` passes through unchanged. -/
noncomputable def mainRoundDepthCheck (rdepth depth : ℝ) (shorten : Bool) :
    Option ℝ :=
  if rdepth > depth - 5 then
    if shorten then some (max (depth - 5) 0) else none
  else some rdepth

/-- The cavity shape exactly as the specification words it for
`roundDepth > 0`: `Translate(offsetX, offsetY, floorThickness)` of
`Scale(1, sizeY/sizeX, 1)` of `Intersection(fullPrism, Union(partPrism,
roundedBottom))`, where the prism heights come from the function's own
`depth` argument.  Kept separate from `createSubtractSlot` so the two can
be compared. -/
noncomputable def buildCavitySpec (offsetX offsetY sizeX sizeY depth
    roundDepth floorThickness : ℝ) : SolidExpr :=
  SolidExpr.translate offsetX offsetY floorThickness
    (SolidExpr.scale 1 (sizeY / sizeX) 1
      (SolidExpr.intersection
        (SolidExpr.cube sizeX sizeX (depth * 1.1))
        (SolidExpr.union
          [SolidExpr.translate 0 0 roundDepth
             (SolidExpr.cube sizeX sizeX (depth * 1.1)),
           SolidExpr.translate (sizeX / 2) (sizeX / 2) roundDepth
             (SolidExpr.scale 1 1 (roundDepth / (Real.sqrt 2 * sizeX / 2))
               (SolidExpr.sphere (Real.sqrt 2 * sizeX / 2)))])))

/-! ### Arithmetic helper lemmas -/

lemma sqrt_two_sq : Real.sqrt 2 ^ 2 = 2 := Real.sq_sqrt (by norm_num)

lemma sqrt_two_pos : (0 : ℝ) < Real.sqrt 2 := Real.sqrt_pos.mpr (by norm_num)

lemma sqrt_two_gt : (1.414 : ℝ) < Real.sqrt 2 := by
  nlinarith [sqrt_two_sq, sqrt_two_pos]

lemma sqrt_two_lt : Real.sqrt 2 < 1.415 := by
  nlinarith [sqrt_two_sq, sqrt_two_pos]

/-- Closed form of the half-sphere-minus-four-caps figure before any
rescaling: `(fullSphereVol - 4*oneCapFullVol) / 2 = π(5 - 2√2)x³/12`. -/
lemma halfSphereMinusCaps_eq (x : ℝ) :
    (fullSphereVol x - 4 * oneCapFullVol x) / 2 =
      Real.pi * (5 - 2 * Real.sqrt 2) * x ^ 3 / 12 := by
  simp only [fullSphereVol, oneCapFullVol, capA, capH, sphereRad]
  linear_combination (Real.pi * x ^ 3 * (Real.sqrt 2 + 3) / 24) * sqrt_two_sq

/-- The coefficient relating the rounded-region volume to `x·y·roundDepth`:
`roundVol_mm3 x y ρ = roundCoeff · x · y · ρ` (for `x ≠ 0`). -/
noncomputable def roundCoeff : ℝ := Real.pi * (5 * Real.sqrt 2 - 4) / 12

/-- Closed form of the rounded-region volume term. -/
lemma roundVol_closed (x y ρ : ℝ) (hx : x ≠ 0) :
    roundVol_mm3 x y ρ = roundCoeff * x * y * ρ := by
  have hs0 : Real.sqrt 2 ≠ 0 := ne_of_gt sqrt_two_pos
  rw [roundVol_mm3, halfSphereMinusCaps_eq, roundCoeff]
  simp only [sphereScaleY, sphereScaleZ, sphereRad]
  field_simp
  linear_combination (-(60 : ℝ)) * Real.pi * x ^ 3 * y * ρ * sqrt_two_sq

lemma roundCoeff_pos : 0 < roundCoeff := by
  rw [roundCoeff]
  nlinarith [Real.pi_gt_three, sqrt_two_gt]

lemma roundCoeff_lt_one : roundCoeff < 1 := by
  rw [roundCoeff]
  nlinarith [Real.pi_lt_d2, sqrt_two_lt, sqrt_two_gt, Real.pi_gt_three]

/-- Closed form of the reported millilitre figure (for `x ≠ 0`). -/
lemma computeSlotVolume_fst (x y d ρ : ℝ) (hx : x ≠ 0) :
    (computeSlotVolume x y d ρ).1 =
      (x * y * d + (roundCoeff - 1) * x * y * ρ) / 1000 := by
  simp only [computeSlotVolume, roundVol_closed x y ρ hx]
  ring

/-! ### Layout lemmas -/

/-- The inner loop leaves `xOff` at `xOff + Σ(wall + xsz)`. -/
lemma traySlotsRow_snd (gd wall dep rdep floor ysz yOff xOff : ℝ)
    (xs : List ℝ) :
    (traySlotsRow gd wall dep rdep floor ysz yOff xOff xs).2
      = xOff + xs.sum + wall * xs.length := by
  induction xs generalizing xOff with
  | nil => simp [traySlotsRow]
  | cons x rest ih =>
    simp only [traySlotsRow, ih, List.sum_cons, List.length_cons]
    push_cast
    ring

/-- The outer loop leaves `yOff` at `yOff + Σ(wall + ysz)`. -/
lemma trayLoop_yOff (gd wall dep rdep floor : ℝ) (xlist : List ℝ)
    (xOff yOff : ℝ) (ys : List ℝ) :
    (trayLoop gd wall dep rdep floor xlist xOff yOff ys).2.2
      = yOff + ys.sum + wall * ys.length := by
  induction ys generalizing xOff yOff with
  | nil => simp [trayLoop]
  | cons y rest ih =>
    simp only [trayLoop, ih, List.sum_cons, List.length_cons]
    push_cast
    ring

/-- When at least one row is processed, the outer loop leaves `xOff` at the
end of the last row: `wall + Σ xlist + wall · |xlist|`. -/
lemma trayLoop_xOff (gd wall dep rdep floor : ℝ) (xlist : List ℝ)
    (xOff yOff : ℝ) (ys : List ℝ) (h : ys ≠ []) :
    (trayLoop gd wall dep rdep floor xlist xOff yOff ys).2.1
      = wall + xlist.sum + wall * xlist.length := by
  induction ys generalizing xOff yOff with
  | nil => exact absurd rfl h
  | cons y rest ih =>
    rcases eq_or_ne rest [] with hr | hr
    · subst hr
      simp only [trayLoop, traySlotsRow_snd]
    · simp only [trayLoop]
      exact ih _ _ hr

/-- Second component of the volume report in closed form (for `x ≠ 0`). -/
lemma computeSlotVolume_snd (x y d ρ : ℝ) (hx : x ≠ 0) :
    (computeSlotVolume x y d ρ).2 =
      (x * y * d + (roundCoeff - 1) * x * y * ρ) / 236588 := by
  simp only [computeSlotVolume, roundVol_closed x y ρ hx]
  ring

/-- C1: for non-empty lists of positive sizes and `wall ≥ 0`, `createTray`
returns `totalWidth = wall + Σ xSizes + wall·|xSizes|` and
`totalHeight = wall + Σ ySizes + wall·|ySizes|`. -/
theorem tray_footprint_C1 (gd xs ys zs dep rdep wall floor : ℝ)
    (xlist ylist : List ℝ) (hx : xlist ≠ []) (hy : ylist ≠ [])
    (hxpos : ∀ v ∈ xlist, 0 < v) (hypos : ∀ v ∈ ylist, 0 < v)
    (hw : 0 ≤ wall) :
    (createTray gd xs ys zs xlist ylist dep rdep wall floor).totalWidth
      = wall + xlist.sum + wall * xlist.length ∧
    (createTray gd xs ys zs xlist ylist dep rdep wall floor).totalHeight
      = wall + ylist.sum + wall * ylist.length := by
  constructor
  · exact trayLoop_xOff gd wall dep rdep floor xlist wall wall ylist hy
  · exact trayLoop_yOff gd wall dep rdep floor xlist wall wall ylist

/-- Witness for C1: the round-trip scenario
`createTray [40,25,70] [30,100,60,60] 38 30 1.5 1` yields
`totalWidth = 141` and `totalHeight = 257.5`. -/
theorem tray_footprint_C1_witness :
    (createTray 38 1 1 1 [40, 25, 70] [30, 100, 60, 60] 38 30 1.5 1).totalWidth
      = 141 ∧
    (createTray 38 1 1 1 [40, 25, 70] [30, 100, 60, 60] 38 30 1.5 1).totalHeight
      = 257.5 := by
  have h := tray_footprint_C1 38 1 1 1 38 30 1.5 1 [40, 25, 70]
    [30, 100, 60, 60] (by simp) (by simp)
    (by intro v hv
        simp only [List.mem_cons, List.not_mem_nil, or_false] at hv
        rcases hv with rfl | rfl | rfl <;> norm_num)
    (by intro v hv
        simp only [List.mem_cons, List.not_mem_nil, or_false] at hv
        rcases hv with rfl | rfl | rfl | rfl <;> norm_num)
    (by norm_num)
  refine ⟨?_, ?_⟩
  · rw [h.1]
    norm_num
  · rw [h.2]
    norm_num

/-- C2: with `roundDepth = 0` the volume report is exactly the box volume,
`sizeX·sizeY·depth/1000` millilitres and `sizeX·sizeY·depth/236588` cups. -/
theorem flat_volume_C2 (x y d : ℝ) (hx : 0 < x) (hy : 0 < y) (hd : 0 < d) :
    (computeSlotVolume x y d 0).1 = x * y * d / 1000 ∧
    (computeSlotVolume x y d 0).2 = x * y * d / 236588 := by
  have hx0 : x ≠ 0 := ne_of_gt hx
  constructor
  · rw [computeSlotVolume_fst x y d 0 hx0]
    ring
  · rw [computeSlotVolume_snd x y d 0 hx0]
    ring

/-- Witness for C2: `computeSlotVolume 40 40 38 0` reports exactly
`60.8` millilitres. -/
theorem flat_volume_C2_witness :
    (computeSlotVolume 40 40 38 0).1 = 60.8 := by
  have h := flat_volume_C2 40 40 38 (by norm_num) (by norm_num) (by norm_num)
  rw [h.1]
  norm_num

/-- The row loop never reads its `dep` argument (it is `createSubtractSlot`'s
unused `binDepth`). -/
lemma traySlotsRow_dep (gd wall d1 d2 rdep floor ysz yOff xOff : ℝ)
    (xs : List ℝ) :
    traySlotsRow gd wall d1 rdep floor ysz yOff xOff xs
      = traySlotsRow gd wall d2 rdep floor ysz yOff xOff xs := by
  induction xs generalizing xOff with
  | nil => rfl
  | cons x rest ih => simp only [traySlotsRow, ih, createSubtractSlot]

/-- The outer loop never reads its `dep` argument either. -/
lemma trayLoop_dep (gd wall d1 d2 rdep floor : ℝ) (xlist : List ℝ)
    (xOff yOff : ℝ) (ys : List ℝ) :
    trayLoop gd wall d1 rdep floor xlist xOff yOff ys
      = trayLoop gd wall d2 rdep floor xlist xOff yOff ys := by
  induction ys generalizing xOff yOff with
  | nil => rfl
  | cons y rest ih =>
    simp only [trayLoop, traySlotsRow_dep gd wall d1 d2 rdep floor y yOff wall xlist, ih]

/-- C10: the solid built by `createSubtractSlot` is independent of its
`binDepth` argument (every prism height comes from the module-level global
`depth`), and consequently the `dep` argument `createTray` forwards to it
has no effect on the geometry. -/
theorem binDepth_unused_C10 (gd oX oY sX sY b1 b2 rdep f : ℝ) :
    createSubtractSlot gd oX oY sX sY b1 rdep f
      = createSubtractSlot gd oX oY sX sY b2 rdep f ∧
    ∀ (xs ys zs wall floor : ℝ) (xlist ylist : List ℝ),
      createTray gd xs ys zs xlist ylist b1 rdep wall floor
        = createTray gd xs ys zs xlist ylist b2 rdep wall floor := by
  constructor
  · rfl
  · intro xs ys zs wall floor xlist ylist
    simp only [createTray, trayLoop_dep gd wall b1 b2 rdep floor xlist wall wall ylist]

/-- Counterexample to C3, at an input with every quantified argument
strictly positive (`offsetX = offsetY = sizeX = sizeY = floorThickness =
depth = roundDepth = 1`): with the module-level global `depth = 2` but
`binDepth = depth-argument = 1`, the solid built by `createSubtractSlot`
differs from the spec's expression (whose prism heights use the function's
own `depth` argument): the code's prisms are `2·1.1` tall, not `1·1.1`. -/
theorem cavity_shape_C3_cex :
    createSubtractSlot 2 1 1 1 1 1 1 1 ≠ buildCavitySpec 1 1 1 1 1 1 1 := by
  norm_num [createSubtractSlot, buildCavitySpec]

/-- C3 (amended): for positive arguments and `roundDepth > 0`,
`createSubtractSlot` returns exactly
`Translate(offsetX, offsetY, floorThickness)(Scale(1, sizeY/sizeX, 1)
(Intersection(fullPrism, Union(partPrism, roundedBottom))))` — but the
prism heights are `gdepth · 1.1` with `gdepth` the module-level global
`depth`, not the function's `binDepth` parameter, which is ignored. -/
theorem cavity_shape_C3 (gd oX oY sX sY bd rdep f : ℝ) (hgd : 0 < gd)
    (hoX : 0 < oX) (hoY : 0 < oY) (hsX : 0 < sX) (hsY : 0 < sY)
    (hf : 0 < f) (hρ : 0 < rdep) :
    createSubtractSlot gd oX oY sX sY bd rdep f
      = buildCavitySpec oX oY sX sY gd rdep f := by
  rw [createSubtractSlot, if_neg (not_le.mpr hρ), buildCavitySpec]

/-- Witness for C3 (amended) at a concrete input. -/
theorem cavity_shape_C3_witness :
    createSubtractSlot 2 1 1 1 1 5 1 1 = buildCavitySpec 1 1 1 1 2 1 1 :=
  cavity_shape_C3 2 1 1 1 1 5 1 1 (by norm_num) (by norm_num) (by norm_num)
    (by norm_num) (by norm_num) (by norm_num) (by norm_num)

/-- C4: for a fixed positive footprint the reported volume is strictly
increasing in `depth` (fixed `roundDepth`) and strictly decreasing in
`roundDepth` over `0 ≤ roundDepth ≤ depth` (fixed `depth`). -/
theorem volume_monotone_C4 (x y d d1 d2 ρ ρ1 ρ2 : ℝ)
    (hx : 0 < x) (hy : 0 < y) :
    (d1 < d2 →
      (computeSlotVolume x y d1 ρ).1 < (computeSlotVolume x y d2 ρ).1) ∧
    (0 ≤ ρ1 → ρ1 < ρ2 → ρ2 ≤ d →
      (computeSlotVolume x y d ρ2).1 < (computeSlotVolume x y d ρ1).1) := by
  have hx0 : x ≠ 0 := ne_of_gt hx
  constructor
  · intro hd
    rw [computeSlotVolume_fst x y d1 ρ hx0, computeSlotVolume_fst x y d2 ρ hx0]
    have h2 : 0 < x * y := mul_pos hx hy
    nlinarith [mul_pos h2 (sub_pos.mpr hd)]
  · intro h0 hlt hub
    rw [computeSlotVolume_fst x y d ρ1 hx0, computeSlotVolume_fst x y d ρ2 hx0]
    have h1 : 0 < 1 - roundCoeff := sub_pos.mpr roundCoeff_lt_one
    have h2 : 0 < x * y := mul_pos hx hy
    have h3 : 0 < ρ2 - ρ1 := sub_pos.mpr hlt
    nlinarith [mul_pos (mul_pos h1 h2) h3]

/-- Witness for C4 at concrete inputs. -/
theorem volume_monotone_C4_witness :
    (computeSlotVolume 40 40 10 5).1 < (computeSlotVolume 40 40 20 5).1 ∧
    (computeSlotVolume 40 40 38 30).1 < (computeSlotVolume 40 40 38 0).1 := by
  have h := volume_monotone_C4 40 40 38 10 20 5 0 30 (by norm_num) (by norm_num)
  exact ⟨h.1 (by norm_num), h.2 (by norm_num) (by norm_num) (by norm_num)⟩

/-- C5: for a square cavity (`sizeX = sizeY = s`) the rounded-region
volume term has Y-aspect scale factor `1`, equals the unscaled
half-sphere-minus-caps figure times only the Z-scale, and is strictly
smaller than the `s × s × roundDepth` box, for every `0 < roundDepth ≤
depth`. -/
theorem square_roundVol_C5 (s d ρ : ℝ) (hs : 0 < s) (hρ : 0 < ρ)
    (hρd : ρ ≤ d) :
    sphereScaleY s s = 1 ∧
    roundVol_mm3 s s ρ
      = (fullSphereVol s - 4 * oneCapFullVol s) / 2 * sphereScaleZ s ρ ∧
    roundVol_mm3 s s ρ < s * s * ρ := by
  have hs0 : s ≠ 0 := ne_of_gt hs
  have hY : sphereScaleY s s = 1 := div_self hs0
  refine ⟨hY, ?_, ?_⟩
  · rw [roundVol_mm3, hY]
    ring
  · rw [roundVol_closed s s ρ hs0]
    nlinarith [roundCoeff_lt_one, mul_pos (mul_pos hs hs) hρ]

/-- Witness for C5 at a concrete input. -/
theorem square_roundVol_C5_witness :
    sphereScaleY 40 40 = 1 ∧ roundVol_mm3 40 40 30 < 40 * 40 * 30 := by
  have h := square_roundVol_C5 40 38 30 (by norm_num) (by norm_num) (by norm_num)
  exact ⟨h.1, h.2.2⟩

/-- With an empty column list every row contributes no slots and leaves
`xOff` at `wall`. -/
lemma trayLoop_empty_xlist (gd wall dep rdep floor yOff : ℝ) (ys : List ℝ) :
    trayLoop gd wall dep rdep floor [] wall yOff ys
      = ([], wall, yOff + ys.sum + wall * ys.length) := by
  induction ys generalizing yOff with
  | nil => simp [trayLoop]
  | cons y rest ih =>
    simp only [trayLoop, traySlotsRow, ih, List.sum_cons, List.length_cons,
      List.nil_append, Prod.mk.injEq, true_and]
    push_cast
    ring

/-- Counterexample to C6: `createTray` performs no validation, so with
`xSizes = []` it does not fail — it returns a definite solid (a block of
width `wall` with nothing subtracted), refuting "fails with
InvalidDimension and produces no solid". -/
theorem tray_empty_xlist_C6_cex :
    createTray 38 1 1 1 [] [30] 38 30 1.5 1
      = ⟨1.5, 33, SolidExpr.scale 1 1 1 (SolidExpr.difference
          (SolidExpr.cube 1.5 33 39) (SolidExpr.union []))⟩ := by
  norm_num [createTray, trayLoop, traySlotsRow]

/-- C6 (amended): `createTray` has no InvalidDimension check.  With an
empty `xSizes` it silently returns `totalWidth = wall`, the usual
`totalHeight`, and a solid block — the base prism with an empty union
subtracted. -/
theorem tray_empty_xlist_C6 (gd xs ys zs dep rdep wall floor : ℝ)
    (ylist : List ℝ) :
    createTray gd xs ys zs [] ylist dep rdep wall floor
      = ⟨wall, wall + ylist.sum + wall * ylist.length,
         SolidExpr.scale xs ys zs (SolidExpr.difference
           (SolidExpr.cube wall (wall + ylist.sum + wall * ylist.length)
             (floor + gd))
           (SolidExpr.union []))⟩ := by
  simp only [createTray, trayLoop_empty_xlist]

/-- Counterexample to C7: with `roundDepth = 100 > depth = 10` the core
`createTray` does not reject the input — it returns a complete solid. -/
theorem roundDepth_reject_C7_cex :
    createTray 10 1 1 1 [40] [30] 10 100 0 0
      = ⟨40, 30, SolidExpr.scale 1 1 1 (SolidExpr.difference
          (SolidExpr.cube 40 30 10)
          (SolidExpr.union [createSubtractSlot 10 0 0 40 30 10 100 0]))⟩ := by
  norm_num [createTray, trayLoop, traySlotsRow]

/-- C7 (amended): the core `createTray` performs no roundDepth validation
at all and always builds the full geometry; the clamp-or-abort decision
lives only in `__main__`, which (already when `rdepth > depth - 5`, hence
in particular when `rdepth > depth`) clamps to `max (depth - 5) 0` on
confirmation and aborts on refusal. -/
theorem roundDepth_policy_C7 (rdep dep : ℝ) (h : dep < rdep) :
    mainRoundDepthCheck rdep dep true = some (max (dep - 5) 0) ∧
    mainRoundDepthCheck rdep dep false = none ∧
    ∀ (gd xs ys zs wall floor : ℝ) (xlist ylist : List ℝ),
      (createTray gd xs ys zs xlist ylist dep rdep wall floor).solid
        = SolidExpr.scale xs ys zs (SolidExpr.difference
            (SolidExpr.cube
              (trayLoop gd wall dep rdep floor xlist wall wall ylist).2.1
              (trayLoop gd wall dep rdep floor xlist wall wall ylist).2.2
              (floor + gd))
            (SolidExpr.union
              (trayLoop gd wall dep rdep floor xlist wall wall ylist).1)) := by
  have hgt : rdep > dep - 5 := by linarith
  refine ⟨?_, ?_, ?_⟩
  · simp [mainRoundDepthCheck, hgt]
  · simp [mainRoundDepthCheck, hgt]
  · intro gd xs ys zs wall floor xlist ylist
    rfl

/-- Witness for C7 (amended) at a concrete input. -/
theorem roundDepth_policy_C7_witness :
    mainRoundDepthCheck 100 10 true = some 5 ∧
    mainRoundDepthCheck 100 10 false = none := by
  have h := roundDepth_policy_C7 100 10 (by norm_num)
  refine ⟨?_, h.2.1⟩
  rw [h.1]
  norm_num

/-- Counterexample to C8: for the strictly negative round depth `-10` the
reported volume is not the box volume — the rounded term contributes
positively, so `computeSlotVolume 40 40 38 (-10)` exceeds `60.8` mL. -/
theorem flat_volume_C8_cex :
    (computeSlotVolume 40 40 38 (-10)).1 ≠ 40 * 40 * 38 / 1000 := by
  rw [computeSlotVolume_fst 40 40 38 (-10) (by norm_num)]
  intro h
  nlinarith [roundCoeff_lt_one, roundCoeff_pos]

/-- C8 (amended): only `roundDepth = 0` reduces the reported volume to the
box volume `sizeX·sizeY·depth/1000` mL; for strictly negative `roundDepth`
the formula returns strictly more than the box volume, diverging from the
flat-bottom branch of `createSubtractSlot`, which yields the plain box for
every `roundDepth ≤ 0`. -/
theorem flat_volume_C8 (x y d ρ : ℝ) (hx : 0 < x) (hy : 0 < y)
    (hd : 0 < d) :
    (computeSlotVolume x y d 0).1 = x * y * d / 1000 ∧
    (ρ < 0 → x * y * d / 1000 < (computeSlotVolume x y d ρ).1) ∧
    (∀ gd oX oY bd f : ℝ, ρ ≤ 0 →
      createSubtractSlot gd oX oY x y bd ρ f
        = SolidExpr.translate oX oY f (SolidExpr.cube x y (gd * 1.1))) := by
  have hx0 : x ≠ 0 := ne_of_gt hx
  refine ⟨?_, ?_, ?_⟩
  · rw [computeSlotVolume_fst x y d 0 hx0]
    ring
  · intro hρ
    rw [computeSlotVolume_fst x y d ρ hx0]
    have h1 : 0 < 1 - roundCoeff := sub_pos.mpr roundCoeff_lt_one
    have h2 : 0 < x * y := mul_pos hx hy
    nlinarith [mul_pos (mul_pos h1 h2) (neg_pos.mpr hρ)]
  · intro gd oX oY bd f hρ
    rw [createSubtractSlot, if_pos hρ]

/-- Witness for C8 (amended) at a concrete input. -/
theorem flat_volume_C8_witness :
    (computeSlotVolume 40 40 38 0).1 = 40 * 40 * 38 / 1000 ∧
    40 * 40 * 38 / 1000 < (computeSlotVolume 40 40 38 (-10)).1 := by
  have h := flat_volume_C8 40 40 38 (-10) (by norm_num) (by norm_num)
    (by norm_num)
  exact ⟨h.1, h.2.1 (by norm_num)⟩

/-- Counterexample to C9: with the global `depth = 2` and `dep`-argument
`1`, the returned solid's base prism is `floor + 2` tall, not
`floor + dep = 1` as the claim predicts. -/
theorem tray_base_C9_cex :
    (createTray 2 1 1 1 [1] [1] 1 0 0 0).solid
      ≠ SolidExpr.scale 1 1 1 (SolidExpr.difference
          (SolidExpr.cube 1 1 (0 + 1))
          (SolidExpr.union [createSubtractSlot 2 0 0 1 1 1 0 0])) := by
  norm_num [createTray, trayLoop, traySlotsRow]

/-- C9 (amended): for non-empty size lists, `createTray` returns the base
prism of size `(totalWidth, totalHeight, floor + gdepth)` — `gdepth` the
module-level global `depth`, not the `dep` argument — minus the union of
the per-cell subtraction shapes, scaled per-axis by the calibration
factors. -/
theorem tray_structure_C9 (gd xs ys zs dep rdep wall floor : ℝ)
    (xlist ylist : List ℝ) (hx : xlist ≠ []) (hy : ylist ≠ []) :
    createTray gd xs ys zs xlist ylist dep rdep wall floor
      = ⟨wall + xlist.sum + wall * xlist.length,
         wall + ylist.sum + wall * ylist.length,
         SolidExpr.scale xs ys zs (SolidExpr.difference
           (SolidExpr.cube (wall + xlist.sum + wall * xlist.length)
             (wall + ylist.sum + wall * ylist.length) (floor + gd))
           (SolidExpr.union
             (trayLoop gd wall dep rdep floor xlist wall wall ylist).1))⟩ := by
  have hW := trayLoop_xOff gd wall dep rdep floor xlist wall wall ylist hy
  have hH := trayLoop_yOff gd wall dep rdep floor xlist wall wall ylist
  simp only [createTray, hW, hH]

/-- Witness for C9 (amended) at a concrete input. -/
theorem tray_structure_C9_witness :
    createTray 38 1 1 1 [40] [30] 38 30 1.5 1
      = ⟨43, 33, SolidExpr.scale 1 1 1 (SolidExpr.difference
          (SolidExpr.cube 43 33 39)
          (SolidExpr.union (trayLoop 38 1.5 38 30 1 [40] 1.5 1.5 [30]).1))⟩ := by
  have h := tray_structure_C9 38 1 1 1 38 30 1.5 1 [40] [30] (by simp) (by simp)
  rw [h]
  norm_num
